import Mathlib

/-!
Verification development for the flowlint style service
(`src/entities/style/model/style.service.ts`).

The TypeScript source is shallowly embedded: JavaScript values of type
`boolean | null | undefined` become the inductive `JsBoolN`; the optional,
asynchronous and possibly-rejecting `style.isComboClass()` method becomes
the inductive `ApiBehavior`; promise rejection is modelled with `Except`.
`detectComboClass`, the applied-styles loop of `getAppliedStyles`, and
`sortStylesByType` are translated line by line below.
-/

namespace Flowlint

/-- A JavaScript value of type `boolean | null | undefined`
(the type of `apiResult` in `detectComboClass`). -/
inductive JsBoolN where
  | bool (b : Bool)
  | null
  | undef
deriving DecidableEq, Repr

/-- Behaviour of the optional async method `style.isComboClass()`:
the method can be absent from the style object, its promise can resolve
with a boolean, or its promise can reject with some error (`err` indexes
the possible JavaScript error values). -/
inductive ApiBehavior where
  | absent
  | resolves (b : Bool)
  | rejects (err : Nat)
deriving DecidableEq, Repr

/-- `ComboDetectionSource = 'api' | 'heuristic' | 'policy'`. -/
inductive ComboDetectionSource where
  | api
  | heuristic
  | policy
deriving DecidableEq, Repr

/-- The result record `{ isCombo: boolean; source: ComboDetectionSource }`
returned by `detectComboClass`. -/
structure ComboDetectionResult where
  isCombo : Bool
  source : ComboDetectionSource
deriving DecidableEq, Repr

/-- `ComboDetectionPolicy`: either a string (the three recognised values are
`"api-first"`, `"api-only"`, `"heuristic-only"`; the `switch` in the source
sends any other string to the `default` branch) or a custom decision function
`(apiResult, heuristicResult, className) → boolean`. -/
inductive ComboDetectionPolicy where
  | str (s : String)
  | custom (f : JsBoolN → Bool → String → Bool)

/-- The fields of `Preset` relevant to the style service: only
`comboDetectionPolicy` (optional) is read by `detectComboClass`. -/
structure Preset where
  id : String
  comboDetectionPolicy : Option ComboDetectionPolicy

/-- ASCII character class `[A-Za-z0-9]` of the heuristic regex. -/
def isAsciiAlphanum (c : Char) : Bool :=
  (decide ('A' ≤ c) && decide (c ≤ 'Z')) ||
  (decide ('a' ≤ c) && decide (c ≤ 'z')) ||
  (decide ('0' ≤ c) && decide (c ≤ '9'))

/-- ASCII character class `[A-Z]` of the heuristic regex. -/
def isAsciiUpper (c : Char) : Bool :=
  decide ('A' ≤ c) && decide (c ≤ 'Z')

/-- The heuristic of line 52 of the source:
`/^(?:is-[A-Za-z0-9]|is_[A-Za-z0-9]|is[A-Z]).*/.test(className)`.
The regex is anchored at the start only, so `test` succeeds exactly when the
string begins with `is-` or `is_` followed by an `[A-Za-z0-9]` character, or
with `is` followed by an `[A-Z]` character (`-` and `_` are not in `[A-Z]`,
so folding the two shapes into one `if` is faithful). -/
def comboHeuristic (className : String) : Bool :=
  match className.data with
  | c1 :: c2 :: c3 :: rest =>
      c1 == 'i' && c2 == 's' &&
        (if c3 == '-' || c3 == '_' then
          match rest with
          | c4 :: _ => isAsciiAlphanum c4
          | [] => false
        else isAsciiUpper c3)
  | _ => false

/-- The combo-class shape exactly as the specification words it: the string
starts with `is-` or `is_` followed by at least one alphanumeric character,
or starts with `is` followed immediately by an uppercase letter. -/
def ComboHeuristicSpecP (s : String) : Prop :=
  (∃ sep c rest, (sep = '-' ∨ sep = '_') ∧
      s.data = 'i' :: 's' :: sep :: c :: rest ∧ isAsciiAlphanum c = true) ∨
  (∃ c rest, s.data = 'i' :: 's' :: c :: rest ∧ isAsciiUpper c = true)

/-- Lines 54–67 of the source: obtaining `(hasApiMethod, apiResult)` from the
style. If the method is absent, `hasApiMethod` stays `false` and `apiResult`
stays `undefined`; if the call resolves, `apiResult` is its boolean; if the
call rejects, the `catch` sets `apiResult = null`. -/
def resolveApiSignal : ApiBehavior → Bool × JsBoolN
  | .absent => (false, .undef)
  | .resolves b => (true, .bool b)
  | .rejects _ => (true, .null)

/-- Lines 49–52 and 70–96 of the source: the synchronous remainder of
`detectComboClass` once `(hasApiMethod, apiResult)` are known. The policy is
`preset?.comboDetectionPolicy ?? 'api-first'`; a function policy is applied
first, then the `switch` on the policy string with `default` sharing the
`'api-first'` branch. -/
def comboDecision (hasApiMethod : Bool) (apiResult : JsBoolN)
    (className : String) (preset : Option Preset) : ComboDetectionResult :=
  let heuristicResult := comboHeuristic className
  let policy := (preset.bind Preset.comboDetectionPolicy).getD (.str "api-first")
  match policy with
  | .custom f => { isCombo := f apiResult heuristicResult className, source := .policy }
  | .str s =>
      if s = "api-only" then
        { isCombo := apiResult == .bool true,
          source := if hasApiMethod then .api else .policy }
      else if s = "heuristic-only" then
        { isCombo := heuristicResult, source := .heuristic }
      else
        match apiResult with
        | .bool b => { isCombo := b, source := .api }
        | _ => { isCombo := heuristicResult, source := .heuristic }

/-- `detectComboClass(style, className, preset)` of the source
(lines 44–97), as the total function it computes. -/
def detectComboClass (api : ApiBehavior) (className : String)
    (preset : Option Preset) : ComboDetectionResult :=
  let st := resolveApiSignal api
  comboDecision st.1 st.2 className preset

/-- The `style.isComboClass()` call as a fallible computation:
`none` when the method is absent, otherwise the promise's outcome. -/
def isComboClassCall : ApiBehavior → Option (Except Nat Bool)
  | .absent => none
  | .resolves b => some (.ok b)
  | .rejects e => some (.error e)

/-- `detectComboClass` with its failure path explicit: the `isComboClass`
call runs in `Except` and the source's `try`/`catch` (lines 60–66) is the
`tryCatch` that replaces a rejection by `apiResult = null`. -/
def detectComboClassE (api : ApiBehavior) (className : String)
    (preset : Option Preset) : Except Nat ComboDetectionResult := do
  let (hasApiMethod, apiResult) ←
    match isComboClassCall api with
    | none => pure (false, JsBoolN.undef)
    | some call =>
        tryCatch
          (do
            let b ← call
            pure (true, JsBoolN.bool b))
          (fun _ => pure (true, JsBoolN.null))
  pure (comboDecision hasApiMethod apiResult className preset)

/-- The properties bag returned by `style.getProperties({ breakpoint })`;
the empty object `{}` is the empty list. -/
abbrev Properties := List (String × String)

/-- `name.trim()` of the source, modelled structurally so concrete inputs
evaluate: whitespace characters are dropped from both ends (JavaScript's
whitespace set restricted to the characters `Char.isWhitespace` covers;
no claim depends on exotic whitespace). -/
def jsTrim (s : String) : String :=
  String.mk (((s.data.dropWhile Char.isWhitespace).reverse.dropWhile
    Char.isWhitespace).reverse)

/-- `trimmedName.startsWith('u-')` of the source, modelled structurally on
the characters. -/
def startsWithUDash (s : String) : Bool :=
  match s.data with
  | 'u' :: '-' :: _ => true
  | _ => false

/-- One entry of the array returned by `element.getStyles()`, with the
behaviour of its asynchronous methods: `getName` may reject or resolve with
a string-or-null, `isComboClass` is described by `api`, and `getProperties`
may reject or resolve with a properties bag. -/
structure AppliedStyle where
  id : String
  getName : Except Nat (Option String)
  api : ApiBehavior
  getProperties : Except Nat Properties

/-- The `StyleInfo` record built by the style service. `getAppliedStyles`
always sets the optional `comboDetectionSource` field. -/
structure StyleInfo where
  id : String
  name : String
  properties : Properties
  order : Nat
  isCombo : Bool
  comboDetectionSource : Option ComboDetectionSource
deriving DecidableEq, Repr

/-- The element handle as `getAppliedStyles` consumes it: `getStyles` may be
missing (`none`), may reject, or resolves with the applied-styles array (a
null array behaves like the empty one — both return `[]` — so it is
modelled as `[]`). -/
structure ElementM where
  getStyles : Option (Except Nat (List AppliedStyle))

/-- Lines 210–247 of the source: the `for` loop of `getAppliedStyles` over
the applied styles, carrying the loop index `i` and the `seenIds` set. Each
iteration is wrapped in `try`/`catch`: a rejecting `getName` skips the entry
(the index still advances); `detectComboClass` never rejects; a rejecting
`getProperties` is caught separately and leaves `properties = {}`. An entry
is pushed only when its id is truthy (non-empty) and unseen. -/
def getAppliedStylesLoop (preset : Option Preset) :
    List AppliedStyle → Nat → List String → List StyleInfo
  | [], _, _ => []
  | style :: rest, i, seenIds =>
      match style.getName with
      | .error _ => getAppliedStylesLoop preset rest (i + 1) seenIds
      | .ok name =>
          let trimmedName := (name.map jsTrim).getD ""
          let comboDetection := detectComboClass style.api trimmedName preset
          if style.id ≠ "" ∧ style.id ∉ seenIds then
            let properties :=
              if startsWithUDash trimmedName then
                match style.getProperties with
                | .ok p => p
                | .error _ => []
              else []
            { id := style.id, name := trimmedName, properties := properties,
              order := i, isCombo := comboDetection.isCombo,
              comboDetectionSource := some comboDetection.source } ::
              getAppliedStylesLoop preset rest (i + 1) (style.id :: seenIds)
          else
            getAppliedStylesLoop preset rest (i + 1) seenIds

/-- `getAppliedStyles(element)` of the source (lines 176–250): a missing
element, a missing `getStyles` method, or a rejecting `getStyles` call all
yield `[]`; otherwise the loop runs from index `0` with no seen ids. -/
def getAppliedStyles (element : Option ElementM) (preset : Option Preset) :
    List StyleInfo :=
  match element with
  | none => []
  | some el =>
      match el.getStyles with
      | none => []
      | some (.error _) => []
      | some (.ok appliedStyles) => getAppliedStylesLoop preset appliedStyles 0 []

/-- The comparator of `sortStylesByType` (lines 298–303) read as a boolean
`≤` test (`a` may come before `b` exactly when the comparator is `≤ 0`):
when the two combo flags differ the non-combo side is smaller, otherwise
`a.order - b.order ≤ 0`. -/
def styleLe (a b : StyleInfo) : Bool :=
  let aIsCombo := a.isCombo == true
  let bIsCombo := b.isCombo == true
  if aIsCombo != bIsCombo then bIsCombo else decide (a.order ≤ b.order)

/-- `sortStylesByType(styles)` of the source: `[...styles].sort(cmp)` —
a copy of the input sorted with a consistent comparator; JavaScript's
`Array.prototype.sort` is required to be stable, which `mergeSort` models. -/
def sortStylesByType (styles : List StyleInfo) : List StyleInfo :=
  styles.mergeSort styleLe

/-- A concrete applied-styles list whose first and second entries share the
id `"a"`, used to instantiate the dedup theorem. -/
def sampleEntries : List AppliedStyle :=
  [⟨"a", Except.ok (some "is-active"), .absent, Except.ok []⟩,
   ⟨"a", Except.ok (some "other"), .absent, Except.ok []⟩,
   ⟨"b", Except.ok (some "card"), .absent, Except.ok []⟩]

/-- A concrete element whose `getStyles` resolves with `sampleEntries`. -/
def sampleElement : ElementM := ⟨some (Except.ok sampleEntries)⟩

/-- A concrete applied-styles list in which the first occurrence of the id
`"a"` has a rejecting `getName` and a later occurrence of the same id
resolves. -/
def rejectingEntries : List AppliedStyle :=
  [⟨"a", Except.error 0, .absent, Except.ok []⟩,
   ⟨"a", Except.ok (some "is-active"), .absent, Except.ok []⟩]

end Flowlint

namespace Flowlint

/-- An uppercase ASCII letter is neither `-` nor `_`. -/
theorem isAsciiUpper_not_sep (c : Char) (h : isAsciiUpper c = true) :
    (c == '-' || c == '_') = false := by
  by_cases h1 : c = '-'
  · subst h1; exact absurd h (by decide)
  · by_cases h2 : c = '_'
    · subst h2; exact absurd h (by decide)
    · simp [h1, h2]

/-- Claim C2: for every class-name string, the combo heuristic returns
`true` if and only if the string starts with `is-` or `is_` followed by at
least one alphanumeric character, or starts with `is` followed immediately
by an uppercase letter; together with the seven exact cases the
specification lists. -/
theorem comboHeuristic_characterization :
    (∀ s : String, comboHeuristic s = true ↔ ComboHeuristicSpecP s) ∧
    comboHeuristic "is-active" = true ∧ comboHeuristic "is_visible" = true ∧
    comboHeuristic "isActive" = true ∧ comboHeuristic "is-1234" = true ∧
    comboHeuristic "is-" = false ∧ comboHeuristic "is1234" = false ∧
    comboHeuristic "component-card" = false := by
  refine ⟨fun s => ?_, by decide, by decide, by decide, by decide,
    by decide, by decide, by decide⟩
  constructor
  · intro h
    rcases hd : s.data with _ | ⟨c1, _ | ⟨c2, _ | ⟨c3, rest⟩⟩⟩ <;>
      simp only [comboHeuristic, hd] at h
    · exact absurd h (by simp)
    · exact absurd h (by simp)
    · exact absurd h (by simp)
    · simp only [Bool.and_eq_true, beq_iff_eq] at h
      obtain ⟨⟨h1, h2⟩, h3⟩ := h
      subst h1; subst h2
      by_cases hsep : (c3 == '-' || c3 == '_') = true
      · rw [if_pos (by simpa using hsep)] at h3
        cases rest with
        | nil => exact absurd h3 (by simp)
        | cons c4 r =>
            refine Or.inl ⟨c3, c4, r, ?_, by rw [hd], h3⟩
            simpa [beq_iff_eq] using hsep
      · rw [if_neg (by simpa using hsep)] at h3
        exact Or.inr ⟨c3, rest, by rw [hd], h3⟩
  · rintro (⟨sep, c, rest, hsep, hdata, halnum⟩ | ⟨c, rest, hdata, hup⟩)
    · rcases hsep with h | h <;> subst h <;>
        simp [comboHeuristic, hdata, halnum]
    · simp [comboHeuristic, hdata, isAsciiUpper_not_sep c hup, hup]

/-- Claim C4: when the policy is a custom function, `detectComboClass` calls
it with exactly `(externalSignal, heuristicResult, raw)` in that order, uses
its boolean return value verbatim as `isCombo`, and always reports source
`policy`, for every external-signal behaviour. -/
theorem detectComboClass_custom_spec (f : JsBoolN → Bool → String → Bool)
    (api : ApiBehavior) (className pid : String) :
    detectComboClass api className (some ⟨pid, some (.custom f)⟩) =
      { isCombo := f (resolveApiSignal api).2 (comboHeuristic className) className,
        source := .policy } := by
  cases api <;> rfl

/-- Claim C5: under the `heuristic-only` policy, `detectComboClass` always
returns the heuristic result with source `heuristic`, whatever the external
signal does (absent method, resolution with any boolean, or rejection). -/
theorem detectComboClass_heuristicOnly_spec (api : ApiBehavior)
    (className pid : String) :
    detectComboClass api className (some ⟨pid, some (.str "heuristic-only")⟩) =
      { isCombo := comboHeuristic className, source := .heuristic } := by
  cases api <;> rfl

/-- Claim C7: a missing preset, and a preset that defines no
`comboDetectionPolicy`, both behave exactly like the `api-first` policy. -/
theorem detectComboClass_default_preset_spec (api : ApiBehavior)
    (className pid pid' : String) :
    detectComboClass api className none =
      detectComboClass api className (some ⟨pid', some (.str "api-first")⟩) ∧
    detectComboClass api className (some ⟨pid, none⟩) =
      detectComboClass api className (some ⟨pid', some (.str "api-first")⟩) := by
  cases api <;> exact ⟨rfl, rfl⟩

/-- Claim C6: `detectComboClass` is total — the explicit-failure version
never propagates a rejection, and always returns exactly the pure result —
and a rejecting `isComboClass` call is treated exactly as an unavailable
signal (`apiResult = null`, with the method counted as present). -/
theorem detectComboClass_total_spec :
    (∀ (api : ApiBehavior) (className : String) (preset : Option Preset),
      detectComboClassE api className preset =
        Except.ok (detectComboClass api className preset)) ∧
    (∀ (e : Nat) (className : String) (preset : Option Preset),
      detectComboClass (.rejects e) className preset =
        comboDecision true JsBoolN.null className preset) := by
  refine ⟨fun api className preset => ?_, fun e className preset => rfl⟩
  cases api <;> rfl

/-- Claim C8: combo detection is deterministic in the resolved signal — any
two signal behaviours that resolve to the same `(hasApiMethod, apiResult)`
state (for example two rejections with different errors) yield identical
results, for every policy and class name. -/
theorem detectComboClass_deterministic (a1 a2 : ApiBehavior)
    (className : String) (preset : Option Preset)
    (h : resolveApiSignal a1 = resolveApiSignal a2) :
    detectComboClass a1 className preset =
      detectComboClass a2 className preset := by
  unfold detectComboClass
  rw [h]

/-- Witness for C8: two rejections with different error values resolve to
the same signal state and are detected identically. -/
theorem detectComboClass_deterministic_witness :
    resolveApiSignal (.rejects 0) = resolveApiSignal (.rejects 7) ∧
    detectComboClass (.rejects 0) "is-active" none =
      detectComboClass (.rejects 7) "is-active" none :=
  ⟨rfl, detectComboClass_deterministic (.rejects 0) (.rejects 7)
    "is-active" none rfl⟩

/-- Claim C3: under `api-first` — and under any policy string other than
`api-only` and `heuristic-only`, since the `switch`'s `default` shares the
`api-first` branch — `detectComboClass` returns the external signal with
source `api` whenever the signal is a boolean (neither `null` nor
`undefined`), and otherwise the heuristic with source `heuristic`. -/
theorem detectComboClass_apiFirst_spec (api : ApiBehavior)
    (className pid s : String)
    (h1 : s ≠ "api-only") (h2 : s ≠ "heuristic-only") :
    detectComboClass api className (some ⟨pid, some (.str s)⟩) =
      match (resolveApiSignal api).2 with
      | .bool b => { isCombo := b, source := .api }
      | _ => { isCombo := comboHeuristic className, source := .heuristic } := by
  cases api <;>
    simp [detectComboClass, comboDecision, resolveApiSignal, h1, h2]

/-- Witness for C3: with the policy string `api-first` itself, a signal that
resolves to `true` is reported as `{ isCombo := true, source := api }`. -/
theorem detectComboClass_apiFirst_spec_witness :
    ("api-first" ≠ "api-only") ∧ ("api-first" ≠ "heuristic-only") ∧
    detectComboClass (.resolves true) "card" (some ⟨"p", some (.str "api-first")⟩) =
      { isCombo := true, source := .api } :=
  ⟨by decide, by decide,
    detectComboClass_apiFirst_spec (.resolves true) "card" "p" "api-first"
      (by decide) (by decide)⟩

/-- Claim C1, counterexample: under the `api-only` policy, a style whose
`isComboClass` call rejects is reported with source `api`, not `policy` —
the `catch` sets `apiResult = null` but leaves `hasApiMethod = true`, and
the source attribution tests only `hasApiMethod`. -/
theorem detectComboClass_apiOnly_rejects_counterexample :
    (detectComboClass (.rejects 0) "card"
        (some ⟨"p", some (.str "api-only")⟩)).source = .api ∧
    (detectComboClass (.rejects 0) "card"
        (some ⟨"p", some (.str "api-only")⟩)).source ≠ .policy := by
  constructor
  · rfl
  · intro h
    exact ComboDetectionSource.noConfusion h

/-- Claim C1, amended: under the `api-only` policy, `isCombo` is `true`
exactly when the signal resolved to the boolean `true` (null, undefined,
rejection and an absent method all yield `false`), and `source` is `api`
exactly when the `isComboClass` method is present — including when its call
rejects — and `policy` only when the method is absent. -/
theorem detectComboClass_apiOnly_spec (api : ApiBehavior)
    (className pid : String) :
    detectComboClass api className (some ⟨pid, some (.str "api-only")⟩) =
      { isCombo := decide (api = ApiBehavior.resolves true),
        source := if api = ApiBehavior.absent then .policy else .api } := by
  cases api with
  | absent => rfl
  | resolves b => cases b <;> rfl
  | rejects e => rfl

/-- The comparator order is transitive. -/
theorem styleLe_trans (a b c : StyleInfo)
    (h1 : styleLe a b = true) (h2 : styleLe b c = true) : styleLe a c = true := by
  cases ha : a.isCombo <;> cases hb : b.isCombo <;> cases hc : c.isCombo <;>
    simp_all [styleLe] <;> omega

/-- The comparator order is total. -/
theorem styleLe_total (a b : StyleInfo) :
    (styleLe a b || styleLe b a) = true := by
  cases ha : a.isCombo <;> cases hb : b.isCombo <;>
    simp_all [styleLe] <;> omega

/-- Claim C10: `sortStylesByType` returns a permutation of its input (the
input itself is untouched — the source sorts a copy `[...styles]`, and the
embedding is pure) in which every non-combo style precedes every combo
style, and styles within the same combo group appear in ascending `order`. -/
theorem sortStylesByType_spec (styles : List StyleInfo) :
    (sortStylesByType styles).Perm styles ∧
    (sortStylesByType styles).Pairwise (fun a b =>
      (a.isCombo = true → b.isCombo = true) ∧
      (a.isCombo = b.isCombo → a.order ≤ b.order)) := by
  refine ⟨List.mergeSort_perm styles styleLe, ?_⟩
  have hs := List.sorted_mergeSort styleLe_trans styleLe_total styles
  refine hs.imp ?_
  intro a b hab
  cases ha : a.isCombo <;> cases hb : b.isCombo <;>
    simp_all [styleLe]

/-- Invariant of the applied-styles loop: when every entry's `getName`
resolves, the pushed ids are pairwise distinct, none was already in
`seenIds`, none is empty, and every pushed record's `order` is `i` plus the
position of an occurrence of its id before which every same-id occurrence
was already seen. -/
theorem getAppliedStylesLoop_spec (preset : Option Preset) :
    ∀ (entries : List AppliedStyle) (i : Nat) (seenIds : List String),
      (∀ st ∈ entries, ∃ n, st.getName = Except.ok n) →
      (((getAppliedStylesLoop preset entries i seenIds).map StyleInfo.id).Nodup ∧
        ∀ info ∈ getAppliedStylesLoop preset entries i seenIds,
          info.id ∉ seenIds ∧ info.id ≠ "" ∧
          ∃ k, info.order = i + k ∧
            (entries[k]?).map AppliedStyle.id = some info.id ∧
            ∀ j, j < k → ∀ stj, entries[j]? = some stj →
              stj.id = info.id → stj.id ∈ seenIds) := by
  intro entries
  induction entries with
  | nil =>
      intro i seenIds _
      simp [getAppliedStylesLoop]
  | cons st rest ih =>
      intro i seenIds hok
      obtain ⟨n, hn⟩ := hok st (List.mem_cons_self st rest)
      have hrest : ∀ st' ∈ rest, ∃ n', st'.getName = Except.ok n' :=
        fun st' h' => hok st' (List.mem_cons_of_mem st h')
      by_cases hcond : st.id ≠ "" ∧ st.id ∉ seenIds
      · obtain ⟨ihn, ihm⟩ := ih (i + 1) (st.id :: seenIds) hrest
        simp only [getAppliedStylesLoop, hn]
        rw [if_pos hcond]
        constructor
        · rw [List.map_cons, List.nodup_cons]
          refine ⟨?_, ihn⟩
          intro hmem
          obtain ⟨x, hx, hxid⟩ := List.mem_map.mp hmem
          exact (ihm x hx).1 (hxid ▸ List.mem_cons_self _ _)
        · intro info hinfo
          rcases List.mem_cons.mp hinfo with heq | hmem
          · subst heq
            refine ⟨hcond.2, hcond.1, 0, (Nat.add_zero i).symm, by simp, ?_⟩
            intro j hj
            exact absurd hj (Nat.not_lt_zero j)
          · obtain ⟨hnot, hne, k, hk, hidx, hfirst⟩ := ihm info hmem
            have hne_st : info.id ≠ st.id :=
              fun h => hnot (h ▸ List.mem_cons_self _ _)
            refine ⟨fun h => hnot (List.mem_cons_of_mem _ h), hne, k + 1,
              by omega, by rw [List.getElem?_cons_succ]; exact hidx, ?_⟩
            intro j hj stj hstj hid
            cases j with
            | zero =>
                rw [List.getElem?_cons_zero] at hstj
                have hst : stj = st := (Option.some.inj hstj).symm
                exact absurd (hst ▸ hid).symm hne_st
            | succ j' =>
                rw [List.getElem?_cons_succ] at hstj
                have hmem' := hfirst j' (by omega) stj hstj hid
                rcases List.mem_cons.mp hmem' with h | h
                · exact absurd (hid.symm.trans h) hne_st
                · exact h
      · obtain ⟨ihn, ihm⟩ := ih (i + 1) seenIds hrest
        simp only [getAppliedStylesLoop, hn]
        rw [if_neg hcond]
        refine ⟨ihn, ?_⟩
        intro info hinfo
        obtain ⟨hnot, hne, k, hk, hidx, hfirst⟩ := ihm info hinfo
        refine ⟨hnot, hne, k + 1, by omega,
          by rw [List.getElem?_cons_succ]; exact hidx, ?_⟩
        intro j hj stj hstj hid
        cases j with
        | zero =>
            rw [List.getElem?_cons_zero] at hstj
            have hst : stj = st := (Option.some.inj hstj).symm
            rcases not_and_or.mp hcond with h | h
            · rw [not_not] at h
              have hempty : info.id = "" := by rw [← hid, hst, h]
              exact absurd hempty hne
            · rw [not_not] at h
              rw [hst]
              exact h
        | succ j' =>
            rw [List.getElem?_cons_succ] at hstj
            exact hfirst j' (by omega) stj hstj hid

/-- Claim C9: when every applied style's `getName` resolves,
`getAppliedStyles` returns at most one `StyleInfo` per style id, the first
occurrence of an id in the applied-styles list wins, and each returned
record's `order` equals the index of that first occurrence in the original
list (not a re-compacted index), so later duplicates never appear. -/
theorem getAppliedStyles_dedup_spec (el : ElementM) (preset : Option Preset)
    (entries : List AppliedStyle)
    (hget : el.getStyles = some (Except.ok entries))
    (hok : ∀ st ∈ entries, ∃ n, st.getName = Except.ok n) :
    ((getAppliedStyles (some el) preset).map StyleInfo.id).Nodup ∧
    ∀ info ∈ getAppliedStyles (some el) preset,
      (entries[info.order]?).map AppliedStyle.id = some info.id ∧
      ∀ j, j < info.order → ∀ stj, entries[j]? = some stj →
        stj.id ≠ info.id := by
  obtain ⟨hn, hm⟩ := getAppliedStylesLoop_spec preset entries 0 [] hok
  have hga : getAppliedStyles (some el) preset =
      getAppliedStylesLoop preset entries 0 [] := by
    simp [getAppliedStyles, hget]
  rw [hga]
  refine ⟨hn, ?_⟩
  intro info hinfo
  obtain ⟨_, _, k, hk, hidx, hfirst⟩ := hm info hinfo
  have hk0 : info.order = k := by omega
  rw [hk0]
  refine ⟨hidx, ?_⟩
  intro j hj stj hstj heq
  exact absurd (hfirst j hj stj hstj heq) (List.not_mem_nil stj.id)

/-- Witness for C9: on a concrete element carrying a duplicated style id,
the hypotheses of the dedup theorem hold and its conclusion follows. -/
theorem getAppliedStyles_dedup_spec_witness :
    (sampleElement.getStyles = some (Except.ok sampleEntries) ∧
      ∀ st ∈ sampleEntries, ∃ n, st.getName = Except.ok n) ∧
    (((getAppliedStyles (some sampleElement) none).map StyleInfo.id).Nodup ∧
      ∀ info ∈ getAppliedStyles (some sampleElement) none,
        (sampleEntries[info.order]?).map AppliedStyle.id = some info.id ∧
        ∀ j, j < info.order → ∀ stj, sampleEntries[j]? = some stj →
          stj.id ≠ info.id) :=
  ⟨⟨rfl, by
      intro st hst
      simp only [sampleEntries, List.mem_cons, List.not_mem_nil, or_false] at hst
      rcases hst with h | h | h <;> subst h <;> exact ⟨_, rfl⟩⟩,
    getAppliedStyles_dedup_spec sampleElement none sampleEntries rfl (by
      intro st hst
      simp only [sampleEntries, List.mem_cons, List.not_mem_nil, or_false] at hst
      rcases hst with h | h | h <;> subst h <;> exact ⟨_, rfl⟩)⟩

/-- Claim C9, counterexample: when the first occurrence of an id fails in
`getName`, the loop skips it and the later duplicate is returned — the
record for id `"a"` has `order = 1` although the first occurrence of `"a"`
in the applied-styles list is at index `0`, so `order` does not equal the
index of the first occurrence and a later duplicate did appear. -/
theorem getAppliedStyles_order_counterexample :
    getAppliedStyles (some ⟨some (Except.ok rejectingEntries)⟩) none =
      [{ id := "a", name := "is-active", properties := [], order := 1,
         isCombo := true, comboDetectionSource := some .heuristic }] ∧
    (rejectingEntries[0]?).map AppliedStyle.id = some "a" := by
  exact ⟨by decide, rfl⟩

end Flowlint
